import Mathlib

/-!
Shallow embedding of the activity-tracker's event pipeline
(src/database.py, src/event_listener.py, src/core/services.py,
src/core/utils.py) and proofs about its specification claims.

Conventions:
* SQL `raw_events` rows are `RawEvent` values; the `aggregated_stats`
  table is modelled as a finite map `Key → Option AggRow` keyed by its
  primary key `time_period` (a list of characters).
* Unix timestamps are `Int` (epoch seconds); `localtime` conversion is
  modelled by adding a fixed zone offset `tz` in seconds.
* Wall-clock instants read with `time.time()` are `ℚ` so that the
  sub-second thresholds (0.05 s throttle, 0.2 s / 1 s cache lifetimes)
  are exact.
-/

namespace ActivityTracker

/-- `event_type` column: constrained by the schema
`CHECK(event_type IN ('keyboard', 'mouse'))`. -/
inductive EventType where
  | keyboard
  | mouse
deriving DecidableEq, Repr

/-- A row of `raw_events` (the `id` and `details` columns play no role in
the claims). -/
structure RawEvent where
  timestamp : Int
  event_type : EventType
deriving DecidableEq, Repr

/-- A `time_period` primary-key string, as a list of characters. -/
abbrev Key := List Char

/-- A row of `aggregated_stats`. -/
structure AggRow where
  keyboard_count : Nat
  mouse_count : Nat
  score : Nat
deriving DecidableEq, Repr

/-- The `aggregated_stats` table as a map from primary key to row. -/
abbrev Table := Key → Option AggRow

/-- Result shape of the counts queries: `{'keyboard': …, 'mouse': …}`. -/
structure CountsPair where
  keyboard : Nat
  mouse : Nat
deriving DecidableEq, Repr

/-! ### Civil-calendar arithmetic

SQLite's `strftime(…, timestamp, 'unixepoch', 'localtime')` converts the
epoch-second timestamp to a local civil date/time.  We model it with the
standard proleptic-Gregorian conversion from a day number (days since
1970-01-01) to year/month/day, and a fixed zone offset. -/

/-- Day number (days since the epoch) → `(year, month, day)`. -/
def civilFromDays (z0 : Int) : Int × Nat × Nat :=
  let z := z0 + 719468
  let era := z.fdiv 146097
  let doe := (z - era * 146097).toNat
  let yoe := (doe - doe / 1460 + doe / 36524 - doe / 146096) / 365
  let y := era * 400 + yoe
  let doy := doe - (365 * yoe + yoe / 4 - yoe / 100)
  let mp := (5 * doy + 2) / 153
  let d := doy - (153 * mp + 2) / 5 + 1
  let m := if mp < 10 then mp + 3 else mp - 9
  (if m ≤ 2 then y + 1 else y, m, d)

/-- `(year, month, day)` → day number; inverse of `civilFromDays`. -/
def daysFromCivil (y0 : Int) (m d : Nat) : Int :=
  let y := if m ≤ 2 then y0 - 1 else y0
  let era := y.fdiv 400
  let yoe := (y - era * 400).toNat
  let mp := if 2 < m then m - 3 else m + 9
  let doy := (153 * mp + 2) / 5 + d - 1
  let doe := yoe * 365 + yoe / 4 - yoe / 100 + doy
  era * 146097 + (doe : Int) - 719468

/-- Local civil seconds of a timestamp under zone offset `tz`. -/
def localSecs (tz ts : Int) : Int := ts + tz

/-- Day number of the local instant. -/
def dayIndex (tz ts : Int) : Int := (localSecs tz ts).fdiv 86400

/-- Seconds elapsed since local midnight, in `[0, 86400)`. -/
def secOfDay (tz ts : Int) : Nat := ((localSecs tz ts).emod 86400).toNat

/-- Local `(year, month, day)` of a timestamp. -/
def localYmd (tz ts : Int) : Int × Nat × Nat := civilFromDays (dayIndex tz ts)

/-- Local hour (`%H`). -/
def localHour (tz ts : Int) : Nat := secOfDay tz ts / 3600

/-- Local minute (`%M`). -/
def localMinute (tz ts : Int) : Nat := secOfDay tz ts % 3600 / 60

/-- Weekday of a day number, `0 = Sunday` (1970-01-01 was a Thursday). -/
def weekday (z : Int) : Nat := ((z + 4).emod 7).toNat

/-- Zero-based day of the year of the local instant. -/
def localDayOfYear (tz ts : Int) : Nat :=
  (dayIndex tz ts - daysFromCivil (localYmd tz ts).1 1 1).toNat

/-- strftime's `%W`: week of the year, Monday as first day, days before
the first Monday in week 0. -/
def localWeekW (tz ts : Int) : Nat :=
  let wd := weekday (dayIndex tz ts)
  let mondayWd := (wd + 6) % 7
  (localDayOfYear tz ts + 7 - mondayWd) / 7

/-! ### Rendering period keys -/

/-- The decimal digit character for `n % 10`. -/
def digitChar (n0 : Nat) : Char :=
  let n := n0 % 10
  if n = 0 then '0' else if n = 1 then '1' else if n = 2 then '2'
  else if n = 3 then '3' else if n = 4 then '4' else if n = 5 then '5'
  else if n = 6 then '6' else if n = 7 then '7' else if n = 8 then '8'
  else '9'

/-- `n` rendered as exactly `w` decimal digits (zero padded). -/
def padNat : Nat → Nat → List Char
  | 0, _ => []
  | w + 1, n => padNat w (n / 10) ++ [digitChar (n % 10)]

/-- The year as rendered by `%Y` (four digits, sign for negative years). -/
def yearChars (y : Int) : List Char :=
  if y < 0 then '-' :: padNat 4 (-y).toNat else padNat 4 y.toNat

/-- `%Y-%m-%d` of the local instant. -/
def dateChars (tz ts : Int) : Key :=
  let c := localYmd tz ts
  yearChars c.1 ++ '-' :: padNat 2 c.2.1 ++ '-' :: padNat 2 c.2.2

/-- The quarter-hour suffix of the 15-minute bucket key:
`CASE WHEN %M < 15 THEN '00' WHEN %M < 30 THEN '15' WHEN %M < 45 THEN '30'
ELSE '45' END`. -/
def quarterChars (min : Nat) : List Char :=
  if min < 15 then ['0', '0'] else if min < 30 then ['1', '5']
  else if min < 45 then ['3', '0'] else ['4', '5']

/-- The half-hour suffix of the 30-minute bucket key:
`CASE WHEN %M < 30 THEN '00' ELSE '30' END`. -/
def halfChars (min : Nat) : List Char :=
  if min < 30 then ['0', '0'] else ['3', '0']

/-- 15-minute bucket key: `strftime('%Y-%m-%d %H:', …) || CASE … END`. -/
def period15 (tz ts : Int) : Key :=
  dateChars tz ts ++ ' ' :: padNat 2 (localHour tz ts)
    ++ ':' :: quarterChars (localMinute tz ts)

/-- 30-minute bucket key: `strftime('%Y-%m-%d %H:', …) || CASE … END`. -/
def period30 (tz ts : Int) : Key :=
  dateChars tz ts ++ ' ' :: padNat 2 (localHour tz ts)
    ++ ':' :: halfChars (localMinute tz ts)

/-- Daily bucket key: `strftime('%Y-%m-%d', …)`. -/
def periodDay (tz ts : Int) : Key := dateChars tz ts

/-- Weekly bucket key: `strftime('%Y-W%W', …)`. -/
def periodWeek (tz ts : Int) : Key :=
  yearChars (localYmd tz ts).1 ++ '-' :: 'W' :: padNat 2 (localWeekW tz ts)

/-- Monthly bucket key: `strftime('%Y-%m', …)`. -/
def periodMonth (tz ts : Int) : Key :=
  yearChars (localYmd tz ts).1 ++ '-' :: padNat 2 (localYmd tz ts).2.1

/-! ### SQL `LIKE` patterns

The only `LIKE` patterns applied to `time_period` consist of single
literal characters separated by `%` wildcards (with a leading and, where
relevant, trailing `%`), so matching reduces to an in-order subsequence
test, plus prefix/suffix tests for the anchored patterns. -/

/-- `hasSubseq cs s` holds when the characters `cs` occur in `s` in
order (not necessarily adjacent): the matching semantics of a `LIKE`
pattern `%c₁%c₂%…%cₙ%`. -/
def hasSubseq : List Char → List Char → Bool
  | [], _ => true
  | _ :: _, [] => false
  | c :: cs, x :: xs => if x = c then hasSubseq cs xs else hasSubseq (c :: cs) xs

/-- `time_period LIKE '%-%-% %:%'` — the minute-level key shape used by
the aggregation pass's `DELETE` and the 15/30-minute chart queries. -/
def minuteLikePat (k : Key) : Bool := hasSubseq ['-', '-', ' ', ':'] k

/-! ### The aggregation pass (`EventService._do_calculate_aggregates`) -/

/-- Lower bound of a lookback window:
`strftime('%s', datetime('now', '-D day'))` = `now - D*86400`. -/
def horizonCutoff (days : Nat) (now : Int) : Int := now - days * 86400

/-- `FROM raw_events WHERE timestamp >= cut`. -/
def eventsIn (ev : List RawEvent) (cut : Int) : List RawEvent :=
  ev.filter fun e => decide (cut ≤ e.timestamp)

/-- `SUM(CASE WHEN event_type = et THEN 1 ELSE 0 END)` over a row list. -/
def sumCase (l : List RawEvent) (et : EventType) : Nat :=
  l.foldl (fun acc e => acc + (if e.event_type = et then 1 else 0)) 0

/-- `COUNT(*)` of keyboard rows. -/
def kbCount (l : List RawEvent) : Nat :=
  (l.filter fun e => decide (e.event_type = EventType.keyboard)).length

/-- `COUNT(*)` of mouse rows. -/
def mouseCount (l : List RawEvent) : Nat :=
  (l.filter fun e => decide (e.event_type = EventType.mouse)).length

/-- `SUM(CASE WHEN event_type = 'keyboard' THEN 1 ELSE 5 END)` — the
score column of every aggregation `SELECT`. -/
def scoreSum (l : List RawEvent) : Nat :=
  l.foldl
    (fun acc e => acc + (match e.event_type with
      | EventType.keyboard => 1
      | EventType.mouse => 5)) 0

/-- The group of in-horizon events whose period key is `k`
(`GROUP BY period`). -/
def groupRows (ev : List RawEvent) (cut : Int) (key : Int → Key) (k : Key) :
    List RawEvent :=
  (eventsIn ev cut).filter fun e => decide (key e.timestamp = k)

/-- The aggregated row computed for key `k` by one granularity's
`INSERT … SELECT`. -/
def aggValue (ev : List RawEvent) (cut : Int) (key : Int → Key) (k : Key) :
    AggRow :=
  { keyboard_count := kbCount (groupRows ev cut key k)
  , mouse_count := mouseCount (groupRows ev cut key k)
  , score := scoreSum (groupRows ev cut key k) }

/-- The set of keys produced by one granularity's `GROUP BY`. -/
def aggKeys (ev : List RawEvent) (cut : Int) (key : Int → Key) : List Key :=
  (eventsIn ev cut).map fun e => key e.timestamp

/-- `INSERT OR REPLACE INTO aggregated_stats … SELECT … GROUP BY period`:
every produced key's row replaces whatever the table held at that key. -/
def upsertAgg (ev : List RawEvent) (cut : Int) (key : Int → Key) (T : Table) :
    Table :=
  fun k => if k ∈ aggKeys ev cut key then some (aggValue ev cut key k) else T k

/-- `DELETE FROM aggregated_stats WHERE time_period LIKE '%-%-% %:%'`. -/
def deleteMinuteRows (T : Table) : Table :=
  fun k => if minuteLikePat k then none else T k

/-- `EventService._do_calculate_aggregates`: the delete of minute-level
rows followed by the five granularity upserts, in source order
(15-minute, 30-minute, daily, weekly, monthly). -/
def doCalculateAggregates (ev : List RawEvent) (now tz : Int) (T : Table) :
    Table :=
  upsertAgg ev (horizonCutoff 365 now) (periodMonth tz)
    (upsertAgg ev (horizonCutoff 365 now) (periodWeek tz)
      (upsertAgg ev (horizonCutoff 30 now) (periodDay tz)
        (upsertAgg ev (horizonCutoff 7 now) (period30 tz)
          (upsertAgg ev (horizonCutoff 2 now) (period15 tz)
            (deleteMinuteRows T)))))

/-! ### Query/cache layer (`EventService.get_counts_since`)

Storage access through a `sqlite3` connection can raise; a fallible read
of the raw-event table is an `Except DbError` value.  `get_counts_since`
performs no exception handling, so a storage error shows up in its result
type; the two aggregate queries catch (`try`/`except`) and return `[]`. -/

/-- An exception raised by the data layer. -/
inductive DbError where
  | storageFailure
deriving DecidableEq, Repr

/-- One entry of the counts cache: `_counts_cache[key]` together with its
`_cache_timestamps[key]`. -/
structure CacheEntry where
  key : Int
  counts : CountsPair
  cachedAt : ℚ
deriving DecidableEq

/-- The service's counts cache (`_counts_cache` / `_cache_timestamps`). -/
structure CacheState where
  entries : List CacheEntry
deriving DecidableEq

/-- The cache of a freshly constructed `EventService`. -/
def initCache : CacheState := ⟨[]⟩

/-- The recent-window path: `SELECT event_type, COUNT(*) … WHERE
timestamp >= ? GROUP BY event_type`, unpacked into the result dict. -/
def groupedCounts (ev : List RawEvent) (t : Int) : CountsPair :=
  { keyboard := kbCount (eventsIn ev t), mouse := mouseCount (eventsIn ev t) }

/-- The historical path: `SELECT SUM(CASE WHEN event_type = 'keyboard'
THEN 1 ELSE 0 END), SUM(CASE WHEN event_type = 'mouse' THEN 1 ELSE 0 END)
… WHERE timestamp >= ?` (a `NULL` sum read as 0 by `row[i] or 0`). -/
def condSumCounts (ev : List RawEvent) (t : Int) : CountsPair :=
  { keyboard := sumCase (eventsIn ev t) EventType.keyboard
  , mouse := sumCase (eventsIn ev t) EventType.mouse }

/-- `self._cache_lifetime = 1`. -/
def cacheLifetime : ℚ := 1

/-- Lines 32–35 of services.py: serve from cache when an entry for the
requested timestamp exists and is younger than 0.2 s (recent window) or
the 1 s lifetime (historical window). -/
def cacheLookup (st : CacheState) (t : Int) (now : ℚ) : Option CountsPair :=
  let veryRecent := now - (t : ℚ) < 2
  match st.entries.find? fun en => decide (en.key = t) with
  | some en =>
      if now - en.cachedAt < (if veryRecent then 1 / 5 else cacheLifetime)
      then some en.counts else none
  | none => none

/-- Store the fresh result under the requested timestamp, then clear the
whole cache if it exceeds 20 entries (`_clear_outdated_cache(force=True)`
deletes every entry). -/
def updateCache (st : CacheState) (t : Int) (c : CountsPair) (now : ℚ) :
    CacheState :=
  let entries := ⟨t, c, now⟩ :: st.entries.filter fun en => decide (en.key ≠ t)
  if 20 < entries.length then ⟨[]⟩ else ⟨entries⟩

/-- `EventService.get_counts_since`: cached lookup, then the grouped-count
query for windows starting less than 2 s ago or the conditional-sum query
otherwise.  No `try`/`except` guards the storage access. -/
def getCountsSince (st : CacheState) (db : Except DbError (List RawEvent))
    (t : Int) (now : ℚ) : Except DbError (CountsPair × CacheState) :=
  let veryRecent := now - (t : ℚ) < 2
  match cacheLookup st t now with
  | some c => Except.ok (c, st)
  | none =>
      match db with
      | Except.error e => Except.error e
      | Except.ok ev =>
          let result := if veryRecent then groupedCounts ev t else condSumCounts ev t
          Except.ok (result, updateCache st t result now)

/-! ### Chart queries over `aggregated_stats`

For `SELECT … ORDER BY time_period … LIMIT ?` the stored table is viewed
as its list of rows. -/

/-- The stored rows of `aggregated_stats`. -/
abbrev AggTableRows := List (Key × AggRow)

/-- Lexicographic comparison of keys by character code (SQLite's binary
collation on these ASCII keys). -/
def keyLe : Key → Key → Bool
  | [], _ => true
  | _ :: _, [] => false
  | a :: as_, b :: bs => if a = b then keyLe as_ bs else decide (a.val < b.val)

/-- Insertion step of the `ORDER BY` sort. -/
def insertRow (le : Key → Key → Bool) (x : Key × AggRow) :
    AggTableRows → AggTableRows
  | [] => [x]
  | y :: ys => if le x.1 y.1 then x :: y :: ys else y :: insertRow le x ys

/-- `ORDER BY time_period` with the given comparison. -/
def sortRows (le : Key → Key → Bool) (l : AggTableRows) : AggTableRows :=
  l.foldr (insertRow le) []

/-- `needle` occurs contiguously in the haystack (a `LIKE '%…%'` pattern
whose literal part is a multi-character run). -/
def containsRun (needle : Key) : Key → Bool
  | [] => needle.isEmpty
  | x :: xs => needle.isPrefixOf (x :: xs) || containsRun needle xs

/-- `LIKE '%:00' OR … OR LIKE '%:45'` — quarter-hour key suffixes. -/
def quarterSuffix (k : Key) : Bool :=
  [':', '0', '0'].isSuffixOf k || [':', '1', '5'].isSuffixOf k
    || [':', '3', '0'].isSuffixOf k || [':', '4', '5'].isSuffixOf k

/-- `LIKE '%:00' OR LIKE '%:30'` — half-hour key suffixes. -/
def halfSuffix (k : Key) : Bool :=
  [':', '0', '0'].isSuffixOf k || [':', '3', '0'].isSuffixOf k

/-- Row filter of each `time_range` branch of
`EventService.get_aggregated_data`. -/
def rangeFilter (timeRange : String) (k : Key) : Bool :=
  if timeRange = "15min" then minuteLikePat k && quarterSuffix k
  else if timeRange = "30min" then minuteLikePat k && halfSuffix k
  else if timeRange = "day" then hasSubseq ['-', '-'] k && decide (k.length = 10)
  else if timeRange = "week" then containsRun ['-', 'W'] k
  else if timeRange = "month" then hasSubseq ['-'] k && decide (k.length = 7)
  else false

/-- `EventService.get_aggregated_data`: the whole body is wrapped in
`try`/`except` returning `[]`, and an unrecognized `time_range` falls
through to an empty fetch. -/
def getAggregatedData (db : Except DbError AggTableRows) (timeRange : String)
    (limit : Nat) : AggTableRows :=
  match db with
  | Except.error _ => []
  | Except.ok rows =>
      ((sortRows (fun a b => keyLe b a)
        (rows.filter fun r => rangeFilter timeRange r.1)).take limit)

/-- `time_period LIKE today || ' %:%'`: the key is `today`, a space, then
some characters containing a colon. -/
def todayLikePat (today k : Key) : Bool :=
  (today ++ [' ']).isPrefixOf k && (k.drop (today.length + 1)).contains ':'

/-- `EventService.get_today_aggregated_data`: only `'15min'` and
`'30min'` are served; every other `time_range` returns `[]`, and any
storage error is caught and becomes `[]`. -/
def getTodayAggregatedData (db : Except DbError AggTableRows)
    (timeRange : String) (limit : Nat) (now tz : Int) : AggTableRows :=
  match db with
  | Except.error _ => []
  | Except.ok rows =>
      let today := dateChars tz now
      if timeRange = "15min" then
        ((sortRows keyLe (rows.filter fun r =>
            todayLikePat today r.1 && quarterSuffix r.1)).take limit)
      else if timeRange = "30min" then
        ((sortRows keyLe (rows.filter fun r =>
            todayLikePat today r.1 && halfSuffix r.1)).take limit)
      else []

/-! ### Write buffer (`DatabaseManager.record_event` /
`_flush_batch_events`) and the worker queue -/

/-- A task submitted to the background worker's FIFO queue. -/
inductive DbTask where
  | insertBatch (events : List (EventType × Int))
  | aggregate
deriving DecidableEq, Repr

/-- The batching state of `DatabaseManager`: the pending list guarded by
`batch_lock` and the worker's task queue. -/
structure BufferState where
  batchEvents : List (EventType × Int)
  workerQueue : List DbTask
deriving DecidableEq, Repr

/-- `DatabaseManager._flush_batch_events`: return if nothing is pending;
otherwise swap the pending list out (copy + clear under the lock) and
submit the batch to the worker queue. -/
def flushBatchEvents (s : BufferState) : BufferState :=
  if s.batchEvents.isEmpty then s
  else { batchEvents := []
       , workerQueue := s.workerQueue ++ [DbTask.insertBatch s.batchEvents] }

/-- `DatabaseManager.record_event`: append under the lock, then flush
immediately when more than 10 events are pending. -/
def recordEvent (e : EventType × Int) (s : BufferState) : BufferState :=
  let s1 : BufferState := { s with batchEvents := s.batchEvents ++ [e] }
  if 10 < s1.batchEvents.length then flushBatchEvents s1 else s1

/-! ### Aggregation rate limit (`EventService.calculate_aggregates`) -/

/-- The service-side state touched by `calculate_aggregates`:
`_last_aggregate_time` plus the database manager it enqueues into. -/
structure ServiceState where
  lastAggregateTime : ℚ
  db : BufferState
deriving DecidableEq

/-- `EventService.calculate_aggregates` (worker present): a no-op within
60 s of the previous non-skipped run; otherwise it records the run time
and enqueues the aggregation job on the worker queue. -/
def calculateAggregates (now : ℚ) (st : ServiceState) : ServiceState :=
  if now - st.lastAggregateTime < 60 then st
  else
    { lastAggregateTime := now
    , db := { st.db with workerQueue := st.db.workerQueue ++ [DbTask.aggregate] } }

/-! ### Input capture throttle (`EventListener`) -/

/-- Per-type throttle state of `EventListener` (`last_key_time` /
`last_click_time`). -/
structure ListenerState where
  lastKeyTime : ℚ
  lastClickTime : ℚ
deriving DecidableEq

/-- `self.keyboard_throttle = 0.05`. -/
def keyboardThrottle : ℚ := 1 / 20

/-- `self.mouse_throttle = 0.05`. -/
def mouseThrottle : ℚ := 1 / 20

/-- `EventListener.on_press`: forward (emit to the write path) only when
the gap since the last accepted keyboard event exceeds the throttle;
returns whether the event was forwarded. -/
def onPress (now : ℚ) (s : ListenerState) : Bool × ListenerState :=
  if keyboardThrottle < now - s.lastKeyTime
  then (true, { s with lastKeyTime := now })
  else (false, s)

/-- `EventListener.on_click`: press events only, same shape as
`on_press` on the independent `last_click_time`. -/
def onClick (pressed : Bool) (now : ℚ) (s : ListenerState) :
    Bool × ListenerState :=
  if pressed then
    if mouseThrottle < now - s.lastClickTime
    then (true, { s with lastClickTime := now })
    else (false, s)
  else (false, s)

/-! ### `ScoreCalculator` (core/utils.py) -/

/-- The calculator's weights and memoized `(keyboard, mouse, score)`
triple. -/
structure ScoreCalcState where
  keyboardWeight : Int
  mouseWeight : Int
  lastCalculation : Int × Int × Int
deriving DecidableEq

/-- `ScoreCalculator.__init__`: weights 1 and 5, memo `(0, 0, 0)`. -/
def initScoreCalc : ScoreCalcState := ⟨1, 5, (0, 0, 0)⟩

/-- `ScoreCalculator.calculate_score`: serve the memoized score when the
counts repeat, else compute `keyboard*kw + mouse*mw` and memoize it. -/
def calculateScore (keyboard mouse : Int) (s : ScoreCalcState) :
    Int × ScoreCalcState :=
  if keyboard = s.lastCalculation.1 ∧ mouse = s.lastCalculation.2.1 then
    (s.lastCalculation.2.2, s)
  else
    let score := keyboard * s.keyboardWeight + mouse * s.mouseWeight
    (score, { s with lastCalculation := (keyboard, mouse, score) })

/-! ### Specification-side definitions and concrete fixtures -/

/-- The spec's `countsSince(t)`: for each type, the number of raw events
of that type with `timestamp >= t`.  Stated from the spec's words, to be
compared with the two query paths. -/
def specCountsSince (ev : List RawEvent) (t : Int) : CountsPair :=
  { keyboard := (ev.filter fun e =>
      decide (t ≤ e.timestamp) && decide (e.event_type = EventType.keyboard)).length
  , mouse := (ev.filter fun e =>
      decide (t ≤ e.timestamp) && decide (e.event_type = EventType.mouse)).length }

/-- The spec's scenario event log: keyboard presses at t = 100, 101, 102
and a mouse press at t = 101. -/
def evScenario : List RawEvent :=
  [⟨100, EventType.keyboard⟩, ⟨101, EventType.keyboard⟩,
   ⟨102, EventType.keyboard⟩, ⟨101, EventType.mouse⟩]

/-- Memo coherence of `ScoreCalcState`: the memoized score is the
weighted sum of the memoized counts.  It holds initially and is preserved
by every call, so it characterizes the reachable memo states. -/
def scoreInv (s : ScoreCalcState) : Prop :=
  s.lastCalculation.2.2 =
    s.lastCalculation.1 * s.keyboardWeight + s.lastCalculation.2.1 * s.mouseWeight

/-- Two raw keyboard events 60 s and 960 s into the same local hour
(hour 2777 of the epoch): they land in different 15-minute buckets but
the same 30-minute bucket. -/
def evCollide : List RawEvent :=
  [⟨9997260, EventType.keyboard⟩, ⟨9998160, EventType.keyboard⟩]

/-- An `aggregated_stats` table holding a single 15-minute bucket
(`"1970-01-01 01:00"`) far older than every lookback horizon. -/
def staleTable : Table :=
  fun k => if k = period15 0 3600 then some ⟨1, 0, 1⟩ else none

/-- A buffer state with ten pending keyboard events and an idle worker
queue. -/
def tenPending : BufferState :=
  { batchEvents := List.replicate 10 (EventType.keyboard, 0), workerQueue := [] }

/-! ## Helper lemmas -/

/-- The empty needle matches every haystack. -/
theorem hasSubseq_nil (s : List Char) : hasSubseq [] s = true := by
  cases s <;> rfl

/-- Dropping the head of the needle preserves a subsequence match. -/
theorem hasSubseq_drop :
    ∀ (s cs : List Char) (c : Char),
      hasSubseq (c :: cs) s = true → hasSubseq cs s = true := by
  intro s
  induction s with
  | nil => intro cs c h; simp [hasSubseq] at h
  | cons x xs ih =>
      intro cs c h
      rw [hasSubseq] at h
      cases cs with
      | nil => rfl
      | cons d ds =>
          rw [hasSubseq]
          by_cases hxc : x = c
          · rw [if_pos hxc] at h
            by_cases hxd : x = d
            · rw [if_pos hxd]
              exact ih ds d h
            · rw [if_neg hxd]
              exact h
          · rw [if_neg hxc] at h
            have h' : hasSubseq (d :: ds) xs = true := ih (d :: ds) c h
            by_cases hxd : x = d
            · rw [if_pos hxd]
              exact ih ds d h'
            · rw [if_neg hxd]
              exact h'

/-- Prepending a character to the haystack preserves a subsequence
match. -/
theorem hasSubseq_cons_of (s cs : List Char) (x : Char)
    (h : hasSubseq cs s = true) : hasSubseq cs (x :: s) = true := by
  cases cs with
  | nil => rfl
  | cons c cs' =>
      rw [hasSubseq]
      by_cases hxc : x = c
      · rw [if_pos hxc]
        exact hasSubseq_drop s cs' c h
      · rw [if_neg hxc]
        exact h

/-- Prepending any prefix to the haystack preserves a subsequence
match. -/
theorem hasSubseq_append (xs : List Char) {s cs : List Char}
    (h : hasSubseq cs s = true) : hasSubseq cs (xs ++ s) = true := by
  induction xs with
  | nil => exact h
  | cons y ys ih => exact hasSubseq_cons_of _ _ y ih

/-- Matching needle and haystack heads reduce to their tails. -/
theorem hasSubseq_cons₂ {s cs : List Char} (c : Char)
    (h : hasSubseq cs s = true) : hasSubseq (c :: cs) (c :: s) = true := by
  rw [hasSubseq, if_pos rfl]
  exact h

/-- Every character of a matched needle occurs in the haystack. -/
theorem hasSubseq_mem :
    ∀ (s cs : List Char), hasSubseq cs s = true → ∀ c ∈ cs, c ∈ s := by
  intro s
  induction s with
  | nil =>
      intro cs h c hc
      cases cs with
      | nil => simp at hc
      | cons d ds => simp [hasSubseq] at h
  | cons x xs ih =>
      intro cs h c hc
      cases cs with
      | nil => simp at hc
      | cons d ds =>
          rw [hasSubseq] at h
          by_cases hxd : x = d
          · rw [if_pos hxd] at h
            rcases List.mem_cons.1 hc with hcd | hcds
            · rw [hcd, ← hxd]
              exact List.mem_cons_self x xs
            · exact List.mem_cons_of_mem x (ih ds h c hcds)
          · rw [if_neg hxd] at h
            exact List.mem_cons_of_mem x (ih (d :: ds) h c hc)

/-- The subsequence pattern `'%-%-% %:%'` matches any string of the form
`a ++ "-" ++ b ++ "-" ++ c ++ " " ++ d ++ ":" ++ e`. -/
theorem minutePat_of_shape (a b c d e : List Char) :
    hasSubseq ['-', '-', ' ', ':']
      (a ++ '-' :: (b ++ '-' :: (c ++ ' ' :: (d ++ ':' :: e)))) = true := by
  refine hasSubseq_append a (hasSubseq_cons₂ '-' ?_)
  refine hasSubseq_append b (hasSubseq_cons₂ '-' ?_)
  refine hasSubseq_append c (hasSubseq_cons₂ ' ' ?_)
  exact hasSubseq_append d (hasSubseq_cons₂ ':' (hasSubseq_nil e))

/-- `digitChar` renders only the ten digit characters. -/
theorem digitChar_ne (n : Nat) :
    digitChar n ≠ ':' ∧ digitChar n ≠ ' ' ∧ digitChar n ≠ '-' ∧
      digitChar n ≠ 'W' := by
  unfold digitChar
  dsimp only
  split_ifs <;> exact ⟨by decide, by decide, by decide, by decide⟩

/-- Every character of `padNat` is a digit character. -/
theorem mem_padNat :
    ∀ (w n : Nat) (c : Char), c ∈ padNat w n → ∃ m, c = digitChar m := by
  intro w
  induction w with
  | zero => intro n c h; simp [padNat] at h
  | succ w ih =>
      intro n c h
      rw [padNat] at h
      rcases List.mem_append.1 h with h1 | h2
      · exact ih _ c h1
      · exact ⟨n % 10, by simpa using h2⟩

/-- Every character of `yearChars` is `'-'` or a digit. -/
theorem mem_yearChars (y : Int) (c : Char) (h : c ∈ yearChars y) :
    c = '-' ∨ ∃ m, c = digitChar m := by
  rw [yearChars] at h
  split_ifs at h with hy
  · rcases List.mem_cons.1 h with h1 | h2
    · exact Or.inl h1
    · exact Or.inr (mem_padNat _ _ c h2)
  · exact Or.inr (mem_padNat _ _ c h)

/-- Every character of a `%Y-%m-%d` date key is `'-'` or a digit. -/
theorem mem_dateChars (tz ts : Int) (c : Char) (h : c ∈ dateChars tz ts) :
    c = '-' ∨ ∃ m, c = digitChar m := by
  have h' : c ∈ yearChars (localYmd tz ts).1
      ++ ('-' :: padNat 2 (localYmd tz ts).2.1
        ++ '-' :: padNat 2 (localYmd tz ts).2.2) := by
    simpa only [dateChars, List.append_assoc] using h
  rcases List.mem_append.1 h' with h1 | h1
  · exact mem_yearChars _ c h1
  · rcases List.mem_append.1 h1 with h2 | h2
    · rcases List.mem_cons.1 h2 with h3 | h3
      · exact Or.inl h3
      · exact Or.inr (mem_padNat _ _ c h3)
    · rcases List.mem_cons.1 h2 with h3 | h3
      · exact Or.inl h3
      · exact Or.inr (mem_padNat _ _ c h3)

/-- Every character of a `%Y-W%W` weekly key is `'-'`, `'W'` or a
digit. -/
theorem mem_periodWeek (tz ts : Int) (c : Char) (h : c ∈ periodWeek tz ts) :
    c = '-' ∨ c = 'W' ∨ ∃ m, c = digitChar m := by
  have h' : c ∈ yearChars (localYmd tz ts).1
      ++ '-' :: 'W' :: padNat 2 (localWeekW tz ts) := h
  rcases List.mem_append.1 h' with h1 | h1
  · rcases mem_yearChars _ c h1 with h2 | h2
    · exact Or.inl h2
    · exact Or.inr (Or.inr h2)
  · rcases List.mem_cons.1 h1 with h2 | h2
    · exact Or.inl h2
    · rcases List.mem_cons.1 h2 with h3 | h3
      · exact Or.inr (Or.inl h3)
      · exact Or.inr (Or.inr (mem_padNat _ _ c h3))

/-- Every character of a `%Y-%m` monthly key is `'-'` or a digit. -/
theorem mem_periodMonth (tz ts : Int) (c : Char) (h : c ∈ periodMonth tz ts) :
    c = '-' ∨ ∃ m, c = digitChar m := by
  have h' : c ∈ yearChars (localYmd tz ts).1
      ++ '-' :: padNat 2 (localYmd tz ts).2.1 := h
  rcases List.mem_append.1 h' with h1 | h1
  · exact mem_yearChars _ c h1
  · rcases List.mem_cons.1 h1 with h2 | h2
    · exact Or.inl h2
    · exact Or.inr (mem_padNat _ _ c h2)

/-- 15-minute keys have the minute-level `LIKE` shape. -/
theorem minutePat_period15 (tz ts : Int) :
    minuteLikePat (period15 tz ts) = true := by
  have h := minutePat_of_shape (yearChars (localYmd tz ts).1)
    (padNat 2 (localYmd tz ts).2.1) (padNat 2 (localYmd tz ts).2.2)
    (padNat 2 (localHour tz ts)) (quarterChars (localMinute tz ts))
  rw [minuteLikePat, period15, dateChars]
  simpa [List.append_assoc] using h

/-- 30-minute keys have the minute-level `LIKE` shape. -/
theorem minutePat_period30 (tz ts : Int) :
    minuteLikePat (period30 tz ts) = true := by
  have h := minutePat_of_shape (yearChars (localYmd tz ts).1)
    (padNat 2 (localYmd tz ts).2.1) (padNat 2 (localYmd tz ts).2.2)
    (padNat 2 (localHour tz ts)) (halfChars (localMinute tz ts))
  rw [minuteLikePat, period30, dateChars]
  simpa [List.append_assoc] using h

/-- Daily keys do not have the minute-level shape (they contain no
space). -/
theorem minutePat_periodDay (tz ts : Int) :
    minuteLikePat (periodDay tz ts) = false := by
  rw [Bool.eq_false_iff]
  intro h
  have hsp : ' ' ∈ periodDay tz ts :=
    hasSubseq_mem _ _ h ' ' (by decide)
  rcases mem_dateChars tz ts ' ' hsp with h1 | ⟨m, h2⟩
  · exact absurd h1 (by decide)
  · exact (digitChar_ne m).2.1 h2.symm

/-- Weekly keys do not have the minute-level shape. -/
theorem minutePat_periodWeek (tz ts : Int) :
    minuteLikePat (periodWeek tz ts) = false := by
  rw [Bool.eq_false_iff]
  intro h
  have hsp : ' ' ∈ periodWeek tz ts :=
    hasSubseq_mem _ _ h ' ' (by decide)
  rcases mem_periodWeek tz ts ' ' hsp with h1 | h1 | ⟨m, h2⟩
  · exact absurd h1 (by decide)
  · exact absurd h1 (by decide)
  · exact (digitChar_ne m).2.1 h2.symm

/-- Monthly keys do not have the minute-level shape. -/
theorem minutePat_periodMonth (tz ts : Int) :
    minuteLikePat (periodMonth tz ts) = false := by
  rw [Bool.eq_false_iff]
  intro h
  have hsp : ' ' ∈ periodMonth tz ts :=
    hasSubseq_mem _ _ h ' ' (by decide)
  rcases mem_periodMonth tz ts ' ' hsp with h1 | ⟨m, h2⟩
  · exact absurd h1 (by decide)
  · exact (digitChar_ne m).2.1 h2.symm

/-- 30-minute keys contain a colon. -/
theorem colon_mem_period30 (tz ts : Int) : ':' ∈ period30 tz ts := by
  rw [period30]
  simp

/-- Daily keys contain no colon. -/
theorem colon_not_mem_periodDay (tz ts : Int) : ':' ∉ periodDay tz ts := by
  intro h
  rcases mem_dateChars tz ts ':' h with h1 | ⟨m, h2⟩
  · exact absurd h1 (by decide)
  · exact (digitChar_ne m).1 h2.symm

/-- Weekly keys contain no colon. -/
theorem colon_not_mem_periodWeek (tz ts : Int) : ':' ∉ periodWeek tz ts := by
  intro h
  rcases mem_periodWeek tz ts ':' h with h1 | h1 | ⟨m, h2⟩
  · exact absurd h1 (by decide)
  · exact absurd h1 (by decide)
  · exact (digitChar_ne m).1 h2.symm

/-- Monthly keys contain no colon. -/
theorem colon_not_mem_periodMonth (tz ts : Int) : ':' ∉ periodMonth tz ts := by
  intro h
  rcases mem_periodMonth tz ts ':' h with h1 | ⟨m, h2⟩
  · exact absurd h1 (by decide)
  · exact (digitChar_ne m).1 h2.symm

/-- The conditional-sum fold counts exactly the rows of the summed
type. -/
theorem sumCase_foldl (et : EventType) :
    ∀ (l : List RawEvent) (a : Nat),
      l.foldl (fun acc e => acc + (if e.event_type = et then 1 else 0)) a
        = a + (l.filter fun e => decide (e.event_type = et)).length := by
  intro l
  induction l with
  | nil => intro a; simp
  | cons e l ih =>
      intro a
      rw [List.foldl_cons, ih, List.filter_cons]
      by_cases h : e.event_type = et
      · simp [h]
        omega
      · simp [h]

/-- `sumCase` agrees with the row count of the matching type. -/
theorem sumCase_eq (l : List RawEvent) (et : EventType) :
    sumCase l et = (l.filter fun e => decide (e.event_type = et)).length := by
  simpa [sumCase] using sumCase_foldl et l 0

/-- The score fold adds 1 per keyboard row and 5 per mouse row. -/
theorem scoreSum_foldl :
    ∀ (l : List RawEvent) (a : Nat),
      l.foldl
        (fun acc e => acc + (match e.event_type with
          | EventType.keyboard => 1
          | EventType.mouse => 5)) a
        = a + kbCount l + 5 * mouseCount l := by
  intro l
  induction l with
  | nil => intro a; simp [kbCount, mouseCount]
  | cons e l ih =>
      intro a
      rw [List.foldl_cons, ih]
      cases h : e.event_type <;>
        simp [kbCount, mouseCount, List.filter_cons, h] <;> omega

/-- The score column equals `keyboard_count*1 + mouse_count*5`. -/
theorem scoreSum_eq (l : List RawEvent) :
    scoreSum l = kbCount l + 5 * mouseCount l := by
  simpa [scoreSum] using scoreSum_foldl l 0

/-- Counting a type inside the time-filtered rows is counting rows that
pass both filters. -/
theorem filter_filter_length (ev : List RawEvent) (t : Int) (et : EventType) :
    ((eventsIn ev t).filter fun e => decide (e.event_type = et)).length
      = (ev.filter fun e =>
          decide (t ≤ e.timestamp) && decide (e.event_type = et)).length := by
  induction ev with
  | nil => rfl
  | cons e l ih =>
      by_cases h1 : t ≤ e.timestamp <;> by_cases h2 : e.event_type = et <;>
        simp [eventsIn, List.filter_cons, h1, h2] at ih ⊢ <;> omega

/-! ## Claim theorems -/

/-- C1: for every raw-event table and timestamp `t`, whenever
`get_counts_since` cannot serve from its cache it returns, for each of
keyboard and mouse, the number of raw events of that type with
`timestamp >= t`; moreover the grouped-count path (recent windows) and
the conditional-sum path (historical windows) compute equal results on
every table. -/
theorem counts_query_paths_agree (st : CacheState) (ev : List RawEvent)
    (t : Int) (now : ℚ) (hmiss : cacheLookup st t now = none) :
    groupedCounts ev t = condSumCounts ev t
    ∧ groupedCounts ev t = specCountsSince ev t
    ∧ getCountsSince st (Except.ok ev) t now
        = Except.ok (specCountsSince ev t,
            updateCache st t (specCountsSince ev t) now) := by
  have hg : groupedCounts ev t = specCountsSince ev t := by
    unfold groupedCounts specCountsSince kbCount mouseCount
    rw [CountsPair.mk.injEq]
    exact ⟨filter_filter_length ev t EventType.keyboard,
      filter_filter_length ev t EventType.mouse⟩
  have hc : condSumCounts ev t = specCountsSince ev t := by
    unfold condSumCounts specCountsSince
    rw [CountsPair.mk.injEq, sumCase_eq, sumCase_eq]
    exact ⟨filter_filter_length ev t EventType.keyboard,
      filter_filter_length ev t EventType.mouse⟩
  refine ⟨hg.trans hc.symm, hg, ?_⟩
  simp only [getCountsSince, hmiss]
  split_ifs with h
  · rw [hg]
  · rw [hc]

/-- C1 witness: the scenario table (keyboard at 100, 101, 102; mouse at
101) queried at `t = 100` through an empty cache. -/
theorem counts_query_paths_agree_witness :
    cacheLookup initCache 100 1000 = none
    ∧ getCountsSince initCache (Except.ok evScenario) 100 1000
        = Except.ok (specCountsSince evScenario 100,
            updateCache initCache 100 (specCountsSince evScenario 100) 1000) :=
  ⟨rfl, (counts_query_paths_agree initCache evScenario 100 1000 rfl).2.2⟩

/-- C2: with the raw-event table and the current time fixed, running the
aggregation computation twice leaves `aggregated_stats` exactly as one
run leaves it. -/
theorem aggregation_idempotent (ev : List RawEvent) (now tz : Int)
    (T : Table) :
    doCalculateAggregates ev now tz (doCalculateAggregates ev now tz T)
      = doCalculateAggregates ev now tz T := by
  funext k
  simp only [doCalculateAggregates, upsertAgg, deleteMinuteRows]
  split_ifs <;> rfl

/-- C3 counterexample: 15-minute and 30-minute bucket keys are not
unique per granularity.  At timestamp 9997260 the 15-minute key and the
30-minute key are the same string, and after aggregating two keyboard
events (minutes 1 and 16 of the same hour) over the empty table, the row
stored under that key holds the 30-minute counts (2), not the 15-minute
bucket's counts (1): the later 30-minute upsert overwrote the 15-minute
row. -/
theorem agg_key_collision_cex :
    period15 0 9997260 = period30 0 9997260
    ∧ doCalculateAggregates evCollide 10000000 0 (fun _ => none)
        (period30 0 9997260) = some ⟨2, 0, 2⟩
    ∧ aggValue evCollide (horizonCutoff 2 10000000) (period15 0)
        (period30 0 9997260) = ⟨1, 0, 1⟩ :=
  ⟨by decide, by decide, by decide⟩

/-- C3 (amended): minute-level keys are unique per period string only,
not per granularity: a 15-minute bucket starting on the hour or
half-hour shares its `time_period` with the 30-minute bucket, and the
30-minute upsert, running last, wins.  After a run, any key produced by
the 30-minute grouping holds exactly the 30-minute group's counts of
in-horizon raw events (daily/weekly/monthly keys cannot collide with it,
as they contain no colon). -/
theorem agg_thirty_overwrites (ev : List RawEvent) (now tz : Int)
    (T : Table) (k : Key)
    (h30 : k ∈ aggKeys ev (horizonCutoff 7 now) (period30 tz)) :
    doCalculateAggregates ev now tz T k
      = some (aggValue ev (horizonCutoff 7 now) (period30 tz) k) := by
  obtain ⟨e, _, hk⟩ := List.mem_map.1 (by simpa [aggKeys] using h30)
  have hcolon : ':' ∈ k := by
    rw [← hk]
    exact colon_mem_period30 tz e.timestamp
  have hM : k ∉ aggKeys ev (horizonCutoff 365 now) (periodMonth tz) := by
    intro hmem
    obtain ⟨e', _, hk'⟩ := List.mem_map.1 (by simpa [aggKeys] using hmem)
    exact colon_not_mem_periodMonth tz e'.timestamp (by rw [hk']; exact hcolon)
  have hW : k ∉ aggKeys ev (horizonCutoff 365 now) (periodWeek tz) := by
    intro hmem
    obtain ⟨e', _, hk'⟩ := List.mem_map.1 (by simpa [aggKeys] using hmem)
    exact colon_not_mem_periodWeek tz e'.timestamp (by rw [hk']; exact hcolon)
  have hD : k ∉ aggKeys ev (horizonCutoff 30 now) (periodDay tz) := by
    intro hmem
    obtain ⟨e', _, hk'⟩ := List.mem_map.1 (by simpa [aggKeys] using hmem)
    exact colon_not_mem_periodDay tz e'.timestamp (by rw [hk']; exact hcolon)
  simp only [doCalculateAggregates, upsertAgg]
  rw [if_neg hM, if_neg hW, if_neg hD, if_pos h30]

/-- C3 witness: the amended theorem applied to the colliding key of the
two-event log. -/
theorem agg_thirty_overwrites_witness :
    period30 0 9997260
        ∈ aggKeys evCollide (horizonCutoff 7 10000000) (period30 0)
    ∧ doCalculateAggregates evCollide 10000000 0 (fun _ => none)
        (period30 0 9997260)
      = some (aggValue evCollide (horizonCutoff 7 10000000) (period30 0)
          (period30 0 9997260)) :=
  ⟨by decide,
    agg_thirty_overwrites evCollide 10000000 0 (fun _ => none) _ (by decide)⟩

/-- C4 counterexample: the run deletes a 15-minute bucket lying far
outside the 2-day lookback horizon.  `staleTable` holds the bucket
`"1970-01-01 01:00"`; with an empty event log and `now = 10000000` the
bucket's start (3600) is below the cutoff, yet after the run the row is
gone — the single `DELETE … LIKE '%-%-% %:%'` removes every minute-level
bucket regardless of age. -/
theorem agg_horizon_delete_cex :
    (3600 : Int) < horizonCutoff 2 10000000
    ∧ staleTable (period15 0 3600) = some ⟨1, 0, 1⟩
    ∧ doCalculateAggregates [] 10000000 0 staleTable (period15 0 3600) = none :=
  ⟨by decide, by decide, by decide⟩

/-- C4 (amended): the run performs a single delete that removes every
minute-level bucket — both 15- and 30-minute keys, of any age — and then
recomputes only the buckets having in-horizon events; daily, weekly and
monthly buckets are never deleted, only overwritten key-wise by their
upserts.  Concretely: a minute-shaped key not regenerated by the
15-minute or 30-minute grouping ends up absent, and a non-minute key not
produced by the daily/weekly/monthly groupings is left untouched. -/
theorem agg_delete_shape (ev : List RawEvent) (now tz : Int) (T : Table)
    (k : Key) :
    (minuteLikePat k = true →
      k ∉ aggKeys ev (horizonCutoff 2 now) (period15 tz) →
      k ∉ aggKeys ev (horizonCutoff 7 now) (period30 tz) →
      doCalculateAggregates ev now tz T k = none)
    ∧ (minuteLikePat k = false →
      k ∉ aggKeys ev (horizonCutoff 30 now) (periodDay tz) →
      k ∉ aggKeys ev (horizonCutoff 365 now) (periodWeek tz) →
      k ∉ aggKeys ev (horizonCutoff 365 now) (periodMonth tz) →
      doCalculateAggregates ev now tz T k = T k) := by
  constructor
  · intro hpat h15 h30
    have hD : k ∉ aggKeys ev (horizonCutoff 30 now) (periodDay tz) := by
      intro hmem
      obtain ⟨e', _, hk'⟩ := List.mem_map.1 (by simpa [aggKeys] using hmem)
      rw [← hk'] at hpat
      rw [minutePat_periodDay tz e'.timestamp] at hpat
      exact Bool.noConfusion hpat
    have hW : k ∉ aggKeys ev (horizonCutoff 365 now) (periodWeek tz) := by
      intro hmem
      obtain ⟨e', _, hk'⟩ := List.mem_map.1 (by simpa [aggKeys] using hmem)
      rw [← hk'] at hpat
      rw [minutePat_periodWeek tz e'.timestamp] at hpat
      exact Bool.noConfusion hpat
    have hM : k ∉ aggKeys ev (horizonCutoff 365 now) (periodMonth tz) := by
      intro hmem
      obtain ⟨e', _, hk'⟩ := List.mem_map.1 (by simpa [aggKeys] using hmem)
      rw [← hk'] at hpat
      rw [minutePat_periodMonth tz e'.timestamp] at hpat
      exact Bool.noConfusion hpat
    simp only [doCalculateAggregates, upsertAgg, deleteMinuteRows]
    rw [if_neg hM, if_neg hW, if_neg hD, if_neg h30, if_neg h15]
    simp [hpat]
  · intro hpat hD hW hM
    have h15 : k ∉ aggKeys ev (horizonCutoff 2 now) (period15 tz) := by
      intro hmem
      obtain ⟨e', _, hk'⟩ := List.mem_map.1 (by simpa [aggKeys] using hmem)
      rw [← hk'] at hpat
      rw [minutePat_period15 tz e'.timestamp] at hpat
      exact Bool.noConfusion hpat
    have h30 : k ∉ aggKeys ev (horizonCutoff 7 now) (period30 tz) := by
      intro hmem
      obtain ⟨e', _, hk'⟩ := List.mem_map.1 (by simpa [aggKeys] using hmem)
      rw [← hk'] at hpat
      rw [minutePat_period30 tz e'.timestamp] at hpat
      exact Bool.noConfusion hpat
    simp only [doCalculateAggregates, upsertAgg, deleteMinuteRows]
    rw [if_neg hM, if_neg hW, if_neg hD, if_neg h30, if_neg h15]
    simp [hpat]

/-- C4 witness: the amended theorem's delete clause applied to the stale
15-minute bucket of `staleTable` with an empty event log. -/
theorem agg_delete_shape_witness :
    minuteLikePat (period15 0 3600) = true
    ∧ doCalculateAggregates [] 10000000 0 staleTable (period15 0 3600) = none :=
  ⟨by decide,
    (agg_delete_shape [] 10000000 0 staleTable (period15 0 3600)).1
      (by decide) (by decide) (by decide)⟩

/-- C5: every aggregated bucket row satisfies
`score = keyboard_count*1 + mouse_count*5`; `ScoreCalculator` holds the
memo invariant initially and across calls, and under the default weights
`calculate_score` returns `keyboard*1 + mouse*5` — also on a memo hit;
the scenario bucket (keyboard at 100, 101, 102; mouse at 101) gets
counts (3, 1) and score 8. -/
theorem score_weighting :
    (∀ (ev : List RawEvent) (cut : Int) (key : Int → Key) (k : Key),
      (aggValue ev cut key k).score
        = (aggValue ev cut key k).keyboard_count
          + 5 * (aggValue ev cut key k).mouse_count)
    ∧ scoreInv initScoreCalc
    ∧ (∀ (kb ms : Int) (s : ScoreCalcState),
        scoreInv s → scoreInv (calculateScore kb ms s).2)
    ∧ (∀ (kb ms : Int) (s : ScoreCalcState),
        s.keyboardWeight = 1 → s.mouseWeight = 5 → scoreInv s →
        (calculateScore kb ms s).1 = kb * 1 + ms * 5)
    ∧ aggValue evScenario 0 (period15 0) (period15 0 100) = ⟨3, 1, 8⟩
    ∧ groupedCounts evScenario 100 = ⟨3, 1⟩ := by
  refine ⟨?_, ?_, ?_, ?_, by decide, by decide⟩
  · intro ev cut key k
    exact scoreSum_eq (groupRows ev cut key k)
  · show (0 : Int) = 0 * 1 + 0 * 5
    norm_num
  · intro kb ms s hinv
    unfold calculateScore
    split_ifs with h
    · exact hinv
    · show kb * s.keyboardWeight + ms * s.mouseWeight
        = kb * s.keyboardWeight + ms * s.mouseWeight
      rfl
  · intro kb ms s hkw hmw hinv
    unfold calculateScore
    split_ifs with h
    · rw [scoreInv] at hinv
      rw [hinv, hkw, hmw, ← h.1, ← h.2]
    · rw [hkw, hmw]

/-- C5 witness: the default-weight clause applied to counts (3, 1) from
the freshly initialized calculator. -/
theorem score_weighting_witness :
    initScoreCalc.keyboardWeight = 1 ∧ initScoreCalc.mouseWeight = 5
    ∧ scoreInv initScoreCalc
    ∧ (calculateScore 3 1 initScoreCalc).1 = 3 * 1 + 1 * 5 :=
  ⟨rfl, rfl, by norm_num [scoreInv, initScoreCalc],
    score_weighting.2.2.2.1 3 1 initScoreCalc rfl rfl
      (by norm_num [scoreInv, initScoreCalc])⟩

/-- C6: two same-type input events whose arrival times differ by less
than the 0.05 s throttle are never both forwarded — for keyboard presses
and for mouse presses — and the two types' throttle states are
independent: a key press leaves `last_click_time` unchanged and a click
leaves `last_key_time` unchanged. -/
theorem throttle_at_most_one (s : ListenerState) (t1 t2 : ℚ)
    (_hle : t1 ≤ t2) (hgap : t2 - t1 < 1 / 20) :
    ¬((onPress t1 s).1 = true ∧ (onPress t2 (onPress t1 s).2).1 = true)
    ∧ ¬((onClick true t1 s).1 = true
        ∧ (onClick true t2 (onClick true t1 s).2).1 = true)
    ∧ (onPress t1 s).2.lastClickTime = s.lastClickTime
    ∧ (onClick true t1 s).2.lastKeyTime = s.lastKeyTime := by
  refine ⟨?_, ?_, ?_, ?_⟩
  · rintro ⟨h1, h2⟩
    by_cases hc1 : keyboardThrottle < t1 - s.lastKeyTime
    · have hs2 : (onPress t1 s).2 = { s with lastKeyTime := t1 } := by
        simp [onPress, hc1]
      have hc2 : ¬ keyboardThrottle < t2 - t1 := by
        simp only [keyboardThrottle]
        linarith
      rw [hs2] at h2
      simp [onPress, hc2] at h2
    · simp [onPress, hc1] at h1
  · rintro ⟨h1, h2⟩
    by_cases hc1 : mouseThrottle < t1 - s.lastClickTime
    · have hs2 : (onClick true t1 s).2 = { s with lastClickTime := t1 } := by
        simp [onClick, hc1]
      have hc2 : ¬ mouseThrottle < t2 - t1 := by
        simp only [mouseThrottle]
        linarith
      rw [hs2] at h2
      simp [onClick, hc2] at h2
    · simp [onClick, hc1] at h1
  · unfold onPress
    split <;> rfl
  · unfold onClick
    simp only [if_true]
    split <;> rfl

/-- C6 witness: a press at t = 1 from the idle state and a second press
0.04 s later. -/
theorem throttle_at_most_one_witness :
    (1 : ℚ) ≤ 26 / 25 ∧ (26 / 25 : ℚ) - 1 < 1 / 20
    ∧ ¬((onPress 1 ⟨0, 0⟩).1 = true
        ∧ (onPress (26 / 25) (onPress 1 ⟨0, 0⟩).2).1 = true) :=
  ⟨by norm_num, by norm_num,
    (throttle_at_most_one ⟨0, 0⟩ 1 (26 / 25) (by norm_num) (by norm_num)).1⟩

/-- C7: when a `record_event` call pushes the pending buffer past 10
items, that same call flushes: the pending list is swapped out and left
empty, and the swapped batch is submitted to the worker queue as a
multi-row insert task. -/
theorem buffer_threshold_flush (e : EventType × Int) (s : BufferState)
    (h : 10 < (s.batchEvents ++ [e]).length) :
    recordEvent e s
      = { batchEvents := []
        , workerQueue :=
            s.workerQueue ++ [DbTask.insertBatch (s.batchEvents ++ [e])] } := by
  have hne : (s.batchEvents ++ [e]).isEmpty = false := by
    cases s.batchEvents <;> rfl
  simp only [recordEvent, flushBatchEvents]
  rw [if_pos h, hne]
  rfl

/-- C7 witness: the eleventh event arriving on a ten-event buffer. -/
theorem buffer_threshold_flush_witness :
    10 < (tenPending.batchEvents ++ [(EventType.mouse, 5)]).length
    ∧ recordEvent (EventType.mouse, 5) tenPending
      = { batchEvents := []
        , workerQueue := tenPending.workerQueue
            ++ [DbTask.insertBatch
                  (tenPending.batchEvents ++ [(EventType.mouse, 5)])] } :=
  ⟨by decide, buffer_threshold_flush (EventType.mouse, 5) tenPending (by decide)⟩

/-- C8: a `calculate_aggregates` call made less than 60 s after the
previous non-skipped call is a no-op: the whole service state — the
recorded last-aggregation time and the worker queue (hence the
`aggregated_stats` table, which only enqueued tasks mutate) — is
unchanged and no job is enqueued. -/
theorem rate_limited_noop (now : ℚ) (st : ServiceState)
    (h : now - st.lastAggregateTime < 60) :
    calculateAggregates now st = st := by
  simp [calculateAggregates, h]

/-- C8 witness: a second call at t = 30 after a run recorded at t = 0. -/
theorem rate_limited_noop_witness :
    (30 : ℚ) - ({ lastAggregateTime := 0, db := ⟨[], []⟩ } :
      ServiceState).lastAggregateTime < 60
    ∧ calculateAggregates 30 { lastAggregateTime := 0, db := ⟨[], []⟩ }
      = { lastAggregateTime := 0, db := ⟨[], []⟩ } :=
  ⟨by norm_num, rate_limited_noop 30 _ (by norm_num)⟩

/-- C9 counterexample: a storage error inside `get_counts_since` is not
caught at the query boundary — on a cache miss the error propagates to
the caller instead of an empty result being returned. -/
theorem counts_error_propagates_cex :
    getCountsSince initCache (Except.error DbError.storageFailure) 0 5
      = Except.error DbError.storageFailure := rfl

/-- C9 (amended): the two aggregate queries (`get_aggregated_data`,
`get_today_aggregated_data`) catch storage errors and return the empty
list, but `get_counts_since` has no handler: whenever it cannot answer
from cache, a storage error propagates to the caller. -/
theorem query_error_boundary (e : DbError) :
    (∀ (tr : String) (n : Nat), getAggregatedData (Except.error e) tr n = [])
    ∧ (∀ (tr : String) (n : Nat) (now tz : Int),
        getTodayAggregatedData (Except.error e) tr n now tz = [])
    ∧ (∀ (st : CacheState) (t : Int) (now : ℚ),
        cacheLookup st t now = none →
        getCountsSince st (Except.error e) t now = Except.error e) := by
  refine ⟨fun tr n => rfl, fun tr n now tz => rfl, fun st t now h => ?_⟩
  simp [getCountsSince, h]

/-- C9 witness: the boundary behavior at a concrete failing storage
access. -/
theorem query_error_boundary_witness :
    cacheLookup initCache 0 5 = none
    ∧ getAggregatedData (Except.error DbError.storageFailure) "day" 30 = []
    ∧ getCountsSince initCache (Except.error DbError.storageFailure) 0 5
      = Except.error DbError.storageFailure :=
  ⟨rfl, (query_error_boundary DbError.storageFailure).1 "day" 30,
    (query_error_boundary DbError.storageFailure).2.2 initCache 0 5 rfl⟩

/-- C10: `get_today_aggregated_data` returns the empty list for every
`time_range` other than `'15min'` and `'30min'`, whatever the aggregate
table holds — including when the storage access itself would fail. -/
theorem today_unsupported_range (db : Except DbError AggTableRows)
    (tr : String) (n : Nat) (now tz : Int)
    (h1 : tr ≠ "15min") (h2 : tr ≠ "30min") :
    getTodayAggregatedData db tr n now tz = [] := by
  cases db with
  | error e => rfl
  | ok rows => simp [getTodayAggregatedData, h1, h2]

/-- C10 witness: `time_range = 'day'` against a nonempty aggregate
table. -/
theorem today_unsupported_range_witness :
    ("day" : String) ≠ "15min" ∧ ("day" : String) ≠ "30min"
    ∧ getTodayAggregatedData
        (Except.ok [(period15 0 0, ⟨1, 2, 11⟩)]) "day" 96 0 0 = [] :=
  ⟨by decide, by decide,
    today_unsupported_range (Except.ok [(period15 0 0, ⟨1, 2, 11⟩)]) "day" 96 0 0
      (by decide) (by decide)⟩

end ActivityTracker
